import Mathlib

/-!
Verification of the OpenAI-to-NIM proxy (`src/server.js`) against its
natural-language specification.

The development shallowly embeds the JavaScript source:

* JSON values are modelled by the mutual inductive `JValue` / `JList` /
  `JFields`.  Object fields keep insertion order, as JavaScript objects do.
  JSON numbers are kept as their source lexeme (a `List Char`): the program
  never performs arithmetic on them, it only tests truthiness and passes them
  through, so the floating-point value itself is never needed.
* Strings are modelled as `List Char` (the decoded text of the stream;
  `chunk.toString()` is the decoding boundary of the model).
* The stream transcoder (server.js lines 123-189) becomes the pure functions
  `splitLines`, `processLine`, `processLines`, `feedChunk`, `feedChunks`.
* The gateway validation / request building (lines 69-102) becomes
  `gatewayStep`, `buildNimBody`; the model resolver (lines 22-48) becomes
  `MODEL_MAP` / `resolveFallback` / `resolveModel`; the non-streaming mapper
  (lines 192-221) becomes `mapChoice` / `buildCompletion`.
-/

mutual
/-- JSON values as produced by `JSON.parse`, with insertion-ordered object
fields (`JFields`) and numbers kept as their lexeme. -/
inductive JValue where
  | null : JValue
  | bool : Bool → JValue
  | num : List Char → JValue
  | str : List Char → JValue
  | arr : JList → JValue
  | obj : JFields → JValue
deriving DecidableEq
inductive JList where
  | nil : JList
  | cons : JValue → JList → JList
deriving DecidableEq
inductive JFields where
  | nil : JFields
  | cons : List Char → JValue → JFields → JFields
deriving DecidableEq
end

/-- First (and, for parser-built objects, only) binding of a key. -/
def jfLookup : JFields → List Char → Option JValue
  | JFields.nil, _ => none
  | JFields.cons k v tl, key => if k = key then some v else jfLookup tl key

/-- JavaScript property assignment `o[key] = v`: replaces the value in place
when the key exists, otherwise appends the binding at the end. -/
def jfSet : JFields → List Char → JValue → JFields
  | JFields.nil, key, v => JFields.cons key v JFields.nil
  | JFields.cons k w tl, key, v =>
    if k = key then JFields.cons k v tl else JFields.cons k w (jfSet tl key v)

/-- JavaScript `delete o[key]`: removes the (unique) binding of the key. -/
def jfRemove : JFields → List Char → JFields
  | JFields.nil, _ => JFields.nil
  | JFields.cons k w tl, key =>
    if k = key then tl else JFields.cons k w (jfRemove tl key)

/-- Duplicate-key handling of `JSON.parse`: a later binding overwrites the
value but the key keeps its first insertion position.  `fs` is the already
assembled tail of the member list; `k`/`v` is the member in front of it. -/
def jInsertMember (k : List Char) (v : JValue) (fs : JFields) : JFields :=
  match jfLookup fs k with
  | some v2 => JFields.cons k v2 (jfRemove fs k)
  | none => JFields.cons k v fs

/-- Whether a JSON number lexeme denotes zero (all digits of the integer and
fraction parts are 0, whatever the sign and exponent). -/
def numIsZero (l : List Char) : Bool :=
  let l1 := match l with | '-' :: t => t | t => t
  let intPart := l1.takeWhile Char.isDigit
  let rest := l1.dropWhile Char.isDigit
  let frac := match rest with | '.' :: t => t.takeWhile Char.isDigit | _ => []
  (intPart ++ frac).all (fun c => c = '0')

/-- JavaScript truthiness of a parsed JSON value (`undefined` is represented
as `none` at the use sites, see `optTruthy`). -/
def jsTruthy : JValue → Bool
  | JValue.null => false
  | JValue.bool b => b
  | JValue.num l => !numIsZero l
  | JValue.str s => !s.isEmpty
  | JValue.arr _ => true
  | JValue.obj _ => true

/-- Truthiness of a possibly-undefined value. -/
def optTruthy (o : Option JValue) : Bool :=
  match o with
  | none => false
  | some v => jsTruthy v

mutual
/-- JavaScript string coercion `String(v)` of a parsed JSON value, used by
`output += reasoning` / `output += content`.  Numbers are rendered as their
lexeme (the program only ever concatenates them, never computes with them). -/
def jToString : JValue → List Char
  | JValue.null => ("null").toList
  | JValue.bool true => ("true").toList
  | JValue.bool false => ("false").toList
  | JValue.num l => l
  | JValue.str s => s
  | JValue.arr es => jlToString es
  | JValue.obj _ => ("[object Object]").toList
/-- `Array.prototype.toString`: elements joined by commas, `null` rendered
as the empty string (first element). -/
def jlToString : JList → List Char
  | JList.nil => []
  | JList.cons JValue.null tl => jlToStringRest tl
  | JList.cons v tl => jToString v ++ jlToStringRest tl
/-- `Array.prototype.toString`, elements after the first: each preceded by
a comma, `null` rendered as the empty string. -/
def jlToStringRest : JList → List Char
  | JList.nil => []
  | JList.cons JValue.null tl => ',' :: jlToStringRest tl
  | JList.cons v tl => ',' :: (jToString v ++ jlToStringRest tl)
end

/-- JSON whitespace skipping (space, tab, line feed, carriage return), as
accepted between tokens by `JSON.parse`. -/
def skipWs : List Char → List Char
  | [] => []
  | c :: t => if c = ' ' || c = '\t' || c = '\n' || c = '\r' then skipWs t else c :: t

/-- Value of one hex digit (0-9, a-f, A-F by codepoint ranges), `none` on
anything else. -/
def hexDigitVal (c : Char) : Option Nat :=
  let n := c.toNat
  if 48 ≤ n ∧ n ≤ 57 then some (n - 48)
  else if 97 ≤ n ∧ n ≤ 102 then some (n - 87)
  else if 65 ≤ n ∧ n ≤ 70 then some (n - 55)
  else none

/-- Decode four hex digits, failing on a non-hex character. -/
def hexQuad (h1 h2 h3 h4 : Char) : Option Nat :=
  match hexDigitVal h1, hexDigitVal h2, hexDigitVal h3, hexDigitVal h4 with
  | some a, some b, some c, some e => some (((a * 16 + b) * 16 + c) * 16 + e)
  | _, _, _, _ => none

/-- Body of a JSON string literal, after the opening quote: returns the
decoded characters and the input after the closing quote.  Escapes follow
`JSON.parse`; a surrogate pair of `\uXXXX` escapes is combined, a lone
surrogate becomes U+FFFD (the model's stand-in for unpaired UTF-16 units,
which `Char` cannot carry).  The fuel argument only forces termination;
every call consumes at least one character, so any fuel of at least
`input.length + 1` gives the same result. -/
def parseStringBody : Nat → List Char → Option (List Char × List Char)
  | 0, _ => none
  | _ + 1, [] => none
  | _ + 1, '"' :: rest => some ([], rest)
  | fuel + 1, '\\' :: 'u' :: h1 :: h2 :: h3 :: h4 :: rest =>
    match hexQuad h1 h2 h3 h4 with
    | none => none
    | some n =>
      if 0xD800 ≤ n && n ≤ 0xDBFF then
        match rest with
        | '\\' :: 'u' :: g1 :: g2 :: g3 :: g4 :: rest2 =>
          match hexQuad g1 g2 g3 g4 with
          | some m =>
            if 0xDC00 ≤ m && m ≤ 0xDFFF then
              match parseStringBody fuel rest2 with
              | some (s, r) =>
                some (Char.ofNat (0x10000 + (n - 0xD800) * 0x400 + (m - 0xDC00)) :: s, r)
              | none => none
            else
              match parseStringBody fuel rest with
              | some (s, r) => some (Char.ofNat 0xFFFD :: s, r)
              | none => none
          | none => none
        | _ =>
          match parseStringBody fuel rest with
          | some (s, r) => some (Char.ofNat 0xFFFD :: s, r)
          | none => none
      else if 0xDC00 ≤ n && n ≤ 0xDFFF then
        match parseStringBody fuel rest with
        | some (s, r) => some (Char.ofNat 0xFFFD :: s, r)
        | none => none
      else
        match parseStringBody fuel rest with
        | some (s, r) => some (Char.ofNat n :: s, r)
        | none => none
  | fuel + 1, '\\' :: e :: rest =>
    match parseStringBody fuel rest with
    | some (s, r) =>
      if e = '"' then some ('"' :: s, r)
      else if e = '\\' then some ('\\' :: s, r)
      else if e = '/' then some ('/' :: s, r)
      else if e = 'b' then some ('\x08' :: s, r)
      else if e = 'f' then some ('\x0c' :: s, r)
      else if e = 'n' then some ('\n' :: s, r)
      else if e = 'r' then some ('\r' :: s, r)
      else if e = 't' then some ('\t' :: s, r)
      else none
    | none => none
  | fuel + 1, c :: rest =>
    if c.toNat < 0x20 then none
    else
      match parseStringBody fuel rest with
      | some (s, r) => some (c :: s, r)
      | none => none

/-- Integer part of a JSON number: a single 0, or a nonzero digit followed
by digits. -/
def intDigits : List Char → Option (List Char × List Char)
  | '0' :: t => some ((['0'] : List Char), t)
  | c :: t =>
    if c.isDigit then some (c :: t.takeWhile Char.isDigit, t.dropWhile Char.isDigit)
    else none
  | [] => none

/-- Optional fraction part (strict: a dot must be followed by a digit). -/
def fracDigits (s : List Char) : Option (List Char × List Char) :=
  match s with
  | '.' :: t =>
    let ds := t.takeWhile Char.isDigit
    if ds.isEmpty then none else some ('.' :: ds, t.dropWhile Char.isDigit)
  | _ => some ([], s)

/-- Optional exponent part (strict: digits required after the marker). -/
def expDigits (s : List Char) : Option (List Char × List Char) :=
  match s with
  | e :: t =>
    if e = 'e' || e = 'E' then
      let (sgn, t2) : List Char × List Char :=
        match t with
        | '+' :: u => (['+'], u)
        | '-' :: u => (['-'], u)
        | u => ([], u)
      let ds := t2.takeWhile Char.isDigit
      if ds.isEmpty then none else some (e :: sgn ++ ds, t2.dropWhile Char.isDigit)
    else some ([], s)
  | [] => some ([], s)

/-- A JSON number lexeme per the strict `JSON.parse` grammar; returns the
lexeme and the remaining input. -/
def parseNumber (s : List Char) : Option (List Char × List Char) :=
  let core := fun (u : List Char) =>
    match intDigits u with
    | none => none
    | some (ip, r1) =>
      match fracDigits r1 with
      | none => none
      | some (fp, r2) =>
        match expDigits r2 with
        | none => none
        | some (ep, r3) => some (ip ++ fp ++ ep, r3)
  match s with
  | '-' :: t =>
    (match core t with
     | some (lex, r) => some ('-' :: lex, r)
     | none => none)
  | t => core t

/-- Parsing modes of the recursive-descent JSON parser: a single value, the
element list of an array (after `[`), or the member list of an object (after
the opening brace). -/
inductive PMode where
  | value : PMode
  | elems : PMode
  | members : PMode

/-- Result of one parsing step, matching the three modes. -/
inductive PRes where
  | val : JValue → PRes
  | list : JList → PRes
  | fields : JFields → PRes

/-- One step of the JSON parser.  Fuel only forces termination: between any
two consecutive recursive calls at least one character is consumed, so any
fuel of at least `2 * input.length + 4` is enough (see `jsonParse`). -/
def parseStep : Nat → PMode → List Char → Option (PRes × List Char)
  | 0, _, _ => none
  | Nat.succ fuel, PMode.value, input =>
    match skipWs input with
    | [] => none
    | c :: rest =>
      if c = '\x7b' then
        match skipWs rest with
        | '\x7d' :: r2 => some (PRes.val (JValue.obj JFields.nil), r2)
        | r1 =>
          match parseStep fuel PMode.members r1 with
          | some (PRes.fields fs, r2) => some (PRes.val (JValue.obj fs), r2)
          | _ => none
      else if c = '[' then
        match skipWs rest with
        | ']' :: r2 => some (PRes.val (JValue.arr JList.nil), r2)
        | r1 =>
          match parseStep fuel PMode.elems r1 with
          | some (PRes.list es, r2) => some (PRes.val (JValue.arr es), r2)
          | _ => none
      else if c = '"' then
        match parseStringBody (rest.length + 1) rest with
        | some (s, r2) => some (PRes.val (JValue.str s), r2)
        | none => none
      else if c = 't' then
        match rest with
        | 'r' :: 'u' :: 'e' :: r2 => some (PRes.val (JValue.bool true), r2)
        | _ => none
      else if c = 'f' then
        match rest with
        | 'a' :: 'l' :: 's' :: 'e' :: r2 => some (PRes.val (JValue.bool false), r2)
        | _ => none
      else if c = 'n' then
        match rest with
        | 'u' :: 'l' :: 'l' :: r2 => some (PRes.val JValue.null, r2)
        | _ => none
      else
        match parseNumber (c :: rest) with
        | some (lex, r2) => some (PRes.val (JValue.num lex), r2)
        | none => none
  | Nat.succ fuel, PMode.elems, input =>
    match parseStep fuel PMode.value input with
    | some (PRes.val v, r1) =>
      (match skipWs r1 with
       | ',' :: r2 =>
         (match parseStep fuel PMode.elems r2 with
          | some (PRes.list es, r3) => some (PRes.list (JList.cons v es), r3)
          | _ => none)
       | ']' :: r2 => some (PRes.list (JList.cons v JList.nil), r2)
       | _ => none)
    | _ => none
  | Nat.succ fuel, PMode.members, input =>
    match skipWs input with
    | '"' :: r0 =>
      (match parseStringBody (r0.length + 1) r0 with
       | some (k, r1) =>
         (match skipWs r1 with
          | ':' :: r2 =>
            (match parseStep fuel PMode.value r2 with
             | some (PRes.val v, r3) =>
               (match skipWs r3 with
                | ',' :: r4 =>
                  (match parseStep fuel PMode.members r4 with
                   | some (PRes.fields fs, r5) => some (PRes.fields (jInsertMember k v fs), r5)
                   | _ => none)
                | '\x7d' :: r4 => some (PRes.fields (JFields.cons k v JFields.nil), r4)
                | _ => none)
             | _ => none)
          | _ => none)
       | none => none)
    | _ => none

/-- The model of `JSON.parse`: parses one JSON value and requires only
whitespace after it; any violation gives `none` (the thrown `SyntaxError`). -/
def jsonParse (s : List Char) : Option JValue :=
  match parseStep (2 * s.length + 4) PMode.value s with
  | some (PRes.val v, rest) => if (skipWs rest).isEmpty then some v else none
  | _ => none

/-- The SSE data line marker checked by `line.startsWith("data: ")`. -/
def dataMarker : List Char := ("data: ").toList

/-- The terminal sentinel substring checked by `line.includes("[DONE]")`. -/
def doneToken : List Char := ("[DONE]").toList

/-- Opening reasoning marker emitted by the transcoder. -/
def openMarker : List Char := ("<think>\n").toList

/-- Closing reasoning marker emitted by the transcoder. -/
def closeMarker : List Char := ("\n</think>\n\n").toList

/-- The `SHOW_REASONING` flag of server.js line 17 (false in the source;
the transcoder and mapper below take it as an explicit parameter). -/
def SHOW_REASONING : Bool := false

/-- The `ENABLE_THINKING` flag of server.js line 18. -/
def ENABLE_THINKING : Bool := true

/-- JavaScript `haystack.includes(pat)`: substring containment. -/
def containsSub (pat : List Char) : List Char → Bool
  | [] => pat.isEmpty
  | c :: t => pat.isPrefixOf (c :: t) || containsSub pat t

/-- The optional-chaining index `x?.[0]` of a possibly-undefined value:
first element of an array, property `"0"` of an object, first character of
a string, `undefined` otherwise. -/
def jIndex0 : Option JValue → Option JValue
  | some (JValue.arr (JList.cons v _)) => some v
  | some (JValue.obj fs) => jfLookup fs (("0").toList)
  | some (JValue.str (c :: _)) => some (JValue.str [c])
  | _ => none

/-- The optional-chaining property access `x?.key`: field of an object,
`undefined` for everything else (primitives and arrays have no such own
property). -/
def jProp (key : List Char) : Option JValue → Option JValue
  | some (JValue.obj fs) => jfLookup fs key
  | _ => none

/-- `data.choices?.[0]?.delta` (server.js line 141): the unguarded
`data.choices` access throws a TypeError when `data` is `null` (caught by
the surrounding try, modelled as `Except.error`); all later accesses are
optional-chained. -/
def getDelta : JValue → Except Unit (Option JValue)
  | JValue.null => Except.error ()
  | JValue.obj fs =>
    Except.ok (jProp (("delta").toList) (jIndex0 (jfLookup fs (("choices").toList))))
  | _ => Except.ok none

/-- The merge logic of server.js lines 151-167: builds the outgoing content
string from the reasoning and content fragments and updates `inReasoning`.
Returns `(output, new inReasoning)`. -/
def mergeDelta (showR inR : Bool) (reasoning content : Option JValue) : List Char × Bool :=
  let s1 : List Char × Bool :=
    if showR && optTruthy reasoning then
      ((if inR then [] else openMarker) ++ jToString (reasoning.getD JValue.null), true)
    else ([], inR)
  if optTruthy content then
    (s1.1 ++ (if s1.2 then closeMarker else []) ++ jToString (content.getD JValue.null), false)
  else s1

/-- The delta mutation of server.js lines 170-177: set `delta.content`
according to the three-way branch, then delete `delta.reasoning_content`.
On a non-object delta the assignments are no-ops (sloppy mode) and the
branch that would assign is never reached with a non-empty output. -/
def applyMutation (d : JValue) (out : List Char) (r c : Option JValue) : JValue :=
  match d with
  | JValue.obj fs =>
    let fs1 :=
      if !out.isEmpty then jfSet fs (("content").toList) (JValue.str out)
      else if !optTruthy c && !optTruthy r then fs
      else jfSet fs (("content").toList) (JValue.str [])
    JValue.obj (jfRemove fs1 (("reasoning_content").toList))
  | other => other

/-- Writing the mutated delta back: `delta` is a reference into `data`, so
the in-place mutation is modelled by rebuilding `data` along the access path
`choices → [0] → delta`.  When the path does not lead to an object the
original `data` is returned (no mutation was possible there). -/
def setDelta (data newd : JValue) : JValue :=
  match data with
  | JValue.obj fs =>
    (match jfLookup fs (("choices").toList) with
     | some (JValue.arr (JList.cons c0 tl)) =>
       (match c0 with
        | JValue.obj cfs =>
          JValue.obj (jfSet fs (("choices").toList)
            (JValue.arr (JList.cons (JValue.obj (jfSet cfs (("delta").toList) newd)) tl)))
        | _ => data)
     | some (JValue.obj ofs) =>
       (match jfLookup ofs (("0").toList) with
        | some (JValue.obj cfs) =>
          JValue.obj (jfSet fs (("choices").toList)
            (JValue.obj (jfSet ofs (("0").toList)
              (JValue.obj (jfSet cfs (("delta").toList) newd)))))
        | _ => data)
     | _ => data)
  | _ => data

/-- One write performed by the transcoder: the sentinel line
`data: [DONE]\n\n` or a serialized JSON payload `data: ...\n\n`. -/
inductive OutEvent where
  | done : OutEvent
  | json : JValue → OutEvent
deriving DecidableEq

/-- Classification of one complete line by the cascade of server.js lines
131-145: no data marker → ignored; contains `[DONE]` → sentinel; unparseable
payload (or a `null` payload, whose property access throws) → dropped;
falsy/absent delta → passed through; truthy delta → merged. -/
inductive LineClass where
  | skip : LineClass
  | sentinel : LineClass
  | drop : LineClass
  | pass : JValue → LineClass
  | merge : JValue → JValue → LineClass

/-- Classify one complete line.  `line.slice(6)` is `line.drop 6`. -/
def lineClass (line : List Char) : LineClass :=
  if !(dataMarker.isPrefixOf line) then LineClass.skip
  else if containsSub doneToken line then LineClass.sentinel
  else
    match jsonParse (line.drop 6) with
    | none => LineClass.drop
    | some data =>
      match getDelta data with
      | Except.error _ => LineClass.drop
      | Except.ok od =>
        match od with
        | some d => if jsTruthy d then LineClass.merge data d else LineClass.pass data
        | none => LineClass.pass data

/-- Process one complete line (the body of the `for` loop at server.js
lines 131-183): returns the new `inReasoning` state and the writes made. -/
def processLine (showR inR : Bool) (line : List Char) : Bool × List OutEvent :=
  match lineClass line with
  | LineClass.skip => (inR, [])
  | LineClass.sentinel => (inR, [OutEvent.done])
  | LineClass.drop => (inR, [])
  | LineClass.pass data => (inR, [OutEvent.json data])
  | LineClass.merge data d =>
    let r := jProp (("reasoning_content").toList) (some d)
    let c := jProp (("content").toList) (some d)
    let m := mergeDelta showR inR r c
    (m.2, [OutEvent.json (setDelta data (applyMutation d m.1 r c))])

/-- Process a list of complete lines in order, threading `inReasoning`. -/
def processLines (showR : Bool) : Bool → List (List Char) → Bool × List OutEvent
  | inR, [] => (inR, [])
  | inR, l :: ls =>
    let p := processLine showR inR l
    let q := processLines showR p.1 ls
    (q.1, p.2 ++ q.2)

/-- `buffer.split("\n")` followed by `buffer = lines.pop() || ""` (server.js
lines 128-129): the complete lines and the retained trailing fragment. -/
def splitLines : List Char → List (List Char) × List Char
  | [] => ([], [])
  | c :: cs =>
    let p := splitLines cs
    if c = '\n' then ([] :: p.1, p.2)
    else
      match p.1 with
      | [] => ([], c :: p.2)
      | l :: ls => ((c :: l) :: ls, p.2)

/-- Per-stream transcoder state: the accumulation buffer and the
`inReasoning` flag (server.js lines 123-124). -/
structure TState where
  buffer : List Char
  inR : Bool
deriving DecidableEq

/-- The `data` chunk handler (server.js lines 126-184): append the chunk to
the buffer, split off the complete lines, retain the trailing fragment,
process the complete lines. -/
def feedChunk (showR : Bool) (st : TState) (chunk : List Char) : TState × List OutEvent :=
  let p := splitLines (st.buffer ++ chunk)
  let q := processLines showR st.inR p.1
  (TState.mk p.2 q.1, q.2)

/-- Feed a sequence of chunks, accumulating the writes in order. -/
def feedChunks (showR : Bool) : TState → List (List Char) → TState × List OutEvent
  | st, [] => (st, [])
  | st, ch :: chs =>
    let p := feedChunk showR st ch
    let q := feedChunks showR p.1 chs
    (q.1, p.2 ++ q.2)

/-- Stream start: empty buffer, `inReasoning = false`. -/
def initialState : TState := TState.mk [] false

/-- The whole stream transcoder on a chunk sequence, from the initial
state. -/
def transcode (showR : Bool) (chunks : List (List Char)) : TState × List OutEvent :=
  feedChunks showR initialState chunks

/-- Lowercase hex digit for `JSON.stringify` control-character escapes. -/
def hexDigit (n : Nat) : Char :=
  if n < 10 then Char.ofNat ('0'.toNat + n) else Char.ofNat ('a'.toNat + n - 10)

/-- `JSON.stringify` escaping of one string character. -/
def escapeJsonChar (c : Char) : List Char :=
  if c = '"' then ['\\', '"']
  else if c = '\\' then ['\\', '\\']
  else if c = '\n' then ['\\', 'n']
  else if c = '\r' then ['\\', 'r']
  else if c = '\t' then ['\\', 't']
  else if c = '\x08' then ['\\', 'b']
  else if c = '\x0c' then ['\\', 'f']
  else if c.toNat < 0x20 then
    ['\\', 'u', '0', '0', hexDigit (c.toNat / 16), hexDigit (c.toNat % 16)]
  else [c]

/-- A serialized JSON string literal including the quotes. -/
def stringifyStr (s : List Char) : List Char :=
  '"' :: s.foldr (fun c acc => escapeJsonChar c ++ acc) ['"']

mutual
/-- `JSON.stringify` of a parsed value (numbers re-emitted as their kept
lexeme, see the module comment). -/
def jStringify : JValue → List Char
  | JValue.null => ("null").toList
  | JValue.bool true => ("true").toList
  | JValue.bool false => ("false").toList
  | JValue.num l => l
  | JValue.str s => stringifyStr s
  | JValue.arr es => '[' :: (jStringifyList es ++ [']'])
  | JValue.obj fs => '\x7b' :: (jStringifyFields fs ++ ['\x7d'])
/-- Comma-separated serialization of array elements (first element). -/
def jStringifyList : JList → List Char
  | JList.nil => []
  | JList.cons v tl => jStringify v ++ jStringifyListRest tl
/-- Array elements after the first, each preceded by a comma. -/
def jStringifyListRest : JList → List Char
  | JList.nil => []
  | JList.cons v tl => ',' :: (jStringify v ++ jStringifyListRest tl)
/-- Comma-separated serialization of object members (first member). -/
def jStringifyFields : JFields → List Char
  | JFields.nil => []
  | JFields.cons k v tl =>
    (stringifyStr k ++ ':' :: jStringify v) ++ jStringifyFieldsRest tl
/-- Object members after the first, each preceded by a comma. -/
def jStringifyFieldsRest : JFields → List Char
  | JFields.nil => []
  | JFields.cons k v tl =>
    ',' :: ((stringifyStr k ++ ':' :: jStringify v) ++ jStringifyFieldsRest tl)
end

/-- The bytes actually written for one output event (server.js lines 135,
143 and 179). -/
def renderEvent : OutEvent → List Char
  | OutEvent.done => ("data: [DONE]\n\n").toList
  | OutEvent.json v => ("data: ").toList ++ jStringify v ++ ['\n', '\n']

/-- The exact-match model table of server.js lines 22-30, in source order. -/
def MODEL_MAP : List (List Char × List Char) :=
  [ (("gpt-3.5-turbo").toList, ("z-ai/glm5").toList),
    (("gpt-4").toList, ("moonshotai/kimi-k2.5").toList),
    (("gpt-4-turbo").toList, ("qwen/qwen3.5-397b-a17b").toList),
    (("gpt-4o").toList, ("z-ai/glm5").toList),
    (("claude-3-opus").toList, ("moonshotai/kimi-k2.5").toList),
    (("claude-3-sonnet").toList, ("qwen/qwen3.5-397b-a17b").toList),
    (("gemini-pro").toList, ("z-ai/glm5").toList) ]

/-- The own entries of the `MODEL_MAP` object literal, looked up in order.
This is only the own-property part of `MODEL_MAP[model]`; the full property
access, prototype chain included, is `modelMapAccess` below. -/
def mapLookup : List (List Char × List Char) → List Char → Option (List Char)
  | [], _ => none
  | p :: tl, key => if p.1 = key then some p.2 else mapLookup tl key

/-- `name.toLowerCase()` (ASCII case folding; all table keys and fallback
keywords are ASCII). -/
def toLowerStr (s : List Char) : List Char := s.map Char.toLower

/-- The keyword fallback of server.js lines 33-48. -/
def resolveFallback (name : List Char) : List Char :=
  let lower := toLowerStr name
  if containsSub (("gpt-4").toList) lower || containsSub (("opus").toList) lower
      || containsSub (("405b").toList) lower then
    ("meta/llama-3.1-405b-instruct").toList
  else if containsSub (("claude").toList) lower || containsSub (("gemini").toList) lower
      || containsSub (("70b").toList) lower then
    ("meta/llama-3.1-70b-instruct").toList
  else
    ("meta/llama-3.1-8b-instruct").toList

/-- The string produced by `MODEL_MAP[model] || resolveFallback(model)`
(server.js line 88) when the property access does not hit an inherited
`Object.prototype` member: the own table value unless absent or falsy
(empty).  The full account of line 88 is `resolveModelJs` below. -/
def resolveModel (name : List Char) : List Char :=
  match mapLookup MODEL_MAP name with
  | some v => if v.isEmpty then resolveFallback name else v
  | none => resolveFallback name

/-- The own property names of `Object.prototype`: the names an object
literal such as `MODEL_MAP` inherits.  Reading any of them yields a truthy
non-string (a function, or for `__proto__` the prototype object itself). -/
def OBJECT_PROTOTYPE_KEYS : List (List Char) :=
  [ ("constructor").toList,
    ("hasOwnProperty").toList,
    ("isPrototypeOf").toList,
    ("propertyIsEnumerable").toList,
    ("toLocaleString").toList,
    ("toString").toList,
    ("valueOf").toList,
    ("__defineGetter__").toList,
    ("__defineSetter__").toList,
    ("__lookupGetter__").toList,
    ("__lookupSetter__").toList,
    ("__proto__").toList ]

/-- What a JavaScript property read can find on `MODEL_MAP`: an own entry
of the table literal (a string), a member inherited from
`Object.prototype`, or nothing (`undefined`). -/
inductive MapHit where
  | own : List Char → MapHit
  | inherited : MapHit
  | absent : MapHit
deriving DecidableEq

/-- The full property access `MODEL_MAP[model]`: an own entry shadows the
prototype; otherwise the name is looked up on `Object.prototype`; otherwise
the access is `undefined`. -/
def modelMapAccess (name : List Char) : MapHit :=
  match mapLookup MODEL_MAP name with
  | some v => MapHit.own v
  | none =>
    if OBJECT_PROTOTYPE_KEYS.contains name then MapHit.inherited else MapHit.absent

/-- What `MODEL_MAP[model] || resolveFallback(model)` evaluates to: either
a backend-id string, or — when the access hits an inherited
`Object.prototype` member, which is truthy, so the `||` short-circuits —
that inherited non-string member itself. -/
inductive ResolvedModel where
  | id : List Char → ResolvedModel
  | inheritedMember : ResolvedModel
deriving DecidableEq

/-- Server.js line 88 with full property-access semantics: an own table
value when truthy, the keyword fallback when the access is `undefined` or
the own value is falsy, and the inherited `Object.prototype` member — never
a backend id, and the fallback is never consulted — when the name is one of
`OBJECT_PROTOTYPE_KEYS`. -/
def resolveModelJs (name : List Char) : ResolvedModel :=
  match modelMapAccess name with
  | MapHit.own v =>
    if v.isEmpty then ResolvedModel.id (resolveFallback name) else ResolvedModel.id v
  | MapHit.inherited => ResolvedModel.inheritedMember
  | MapHit.absent => ResolvedModel.id (resolveFallback name)

/-- The destructured request body of server.js lines 71-77.  `model` is
kept at the `ChatRequest` type of the spec (a string or absent); the other
optional fields keep their raw JSON value so that falsy-value handling of
the builder is visible.  A `none` field is an absent (undefined) one. -/
structure Body where
  model : Option (List Char)
  messages : Option JValue
  temperature : Option JValue
  max_tokens : Option JValue
  stream : Option JValue
deriving DecidableEq

/-- The validation of server.js line 79:
`!(!messages || !Array.isArray(messages) || messages.length === 0)`. -/
def messagesOk (b : Body) : Bool :=
  match b.messages with
  | some (JValue.arr (JList.cons _ _)) => true
  | _ => false

/-- The 400 response body of server.js lines 80-85 (note: it carries only
`message` and `type`, no `code` member). -/
def missingMessagesError : JValue :=
  JValue.obj (JFields.cons (("error").toList)
    (JValue.obj (JFields.cons (("message").toList)
      (JValue.str (("messages array is required").toList))
      (JFields.cons (("type").toList)
        (JValue.str (("invalid_request_error").toList)) JFields.nil)))
    JFields.nil)

/-- `model = "gpt-4o"`: the destructuring default applies only when the
field is absent. -/
def defaultedModel (b : Body) : List Char :=
  match b.model with
  | some m => m
  | none => ("gpt-4o").toList

/-- The backend request body `nimBody` of server.js lines 91-102. -/
structure NimBody where
  model : List Char
  messages : JValue
  temperature : JValue
  max_tokens : JValue
  stream : Bool
  chat_template_kwargs : Option JValue
deriving DecidableEq

/-- Build `nimBody`: messages verbatim, `temperature ?? 0.6` (nullish
coalescing), `max_tokens || 4096` (truthiness), `!!stream`, and the fixed
thinking option when `ENABLE_THINKING` is on. -/
def buildNimBody (b : Body) : NimBody :=
  NimBody.mk
    (resolveModel (defaultedModel b))
    (b.messages.getD JValue.null)
    (match b.temperature with
     | none => JValue.num (("0.6").toList)
     | some JValue.null => JValue.num (("0.6").toList)
     | some v => v)
    (match b.max_tokens with
     | some v => if jsTruthy v then v else JValue.num (("4096").toList)
     | none => JValue.num (("4096").toList))
    (optTruthy b.stream)
    (if ENABLE_THINKING then
       some (JValue.obj (JFields.cons (("thinking").toList) (JValue.bool true) JFields.nil))
     else none)

/-- What the gateway does with a request body before any backend traffic:
either an immediate rejection or a backend call carrying the caller-facing
model name and the built backend request. -/
inductive Outcome where
  | reject : Nat → JValue → Outcome
  | callBackend : List Char → NimBody → Outcome
deriving DecidableEq

/-- Server.js lines 79-102: validate `messages`, then resolve the model and
build the backend request. -/
def gatewayStep (b : Body) : Outcome :=
  if !messagesOk b then Outcome.reject 400 missingMessagesError
  else Outcome.callBackend (defaultedModel b) (buildNimBody b)

/-- Decimal rendering of a timestamp. -/
def natLex (n : Nat) : List Char := (toString n).toList

/-- The non-streaming mapping of one choice (server.js lines 192-207);
`choice.message` is an unguarded access, so a `null` choice throws (mapped
to `Except.error`, caught by the outer handler). -/
def mapChoice (showR : Bool) (choice : JValue) : Except Unit JValue :=
  match choice with
  | JValue.null => Except.error ()
  | _ =>
    let msg := jProp (("message").toList) (some choice)
    let content0 := jProp (("content").toList) msg
    let content1 : JValue :=
      match content0 with
      | some v => if jsTruthy v then v else JValue.str []
      | none => JValue.str []
    let reasoning := jProp (("reasoning_content").toList) msg
    let content2 : JValue :=
      if showR && optTruthy reasoning then
        JValue.str (openMarker ++ jToString (reasoning.getD JValue.null)
          ++ closeMarker ++ jToString content1)
      else content1
    let fs0 : JFields :=
      match jProp (("index").toList) (some choice) with
      | some v => JFields.cons (("index").toList) v JFields.nil
      | none => JFields.nil
    let fs1 := jfSet fs0 (("message").toList)
      (JValue.obj (JFields.cons (("role").toList) (JValue.str (("assistant").toList))
        (JFields.cons (("content").toList) content2 JFields.nil)))
    let fs2 : JFields :=
      match jProp (("finish_reason").toList) (some choice) with
      | some v => jfSet fs1 (("finish_reason").toList) v
      | none => fs1
    Except.ok (JValue.obj fs2)

/-- Map every choice in order, propagating a thrown error. -/
def mapChoices (showR : Bool) : JList → Except Unit JList
  | JList.nil => Except.ok JList.nil
  | JList.cons c tl =>
    match mapChoice showR c with
    | Except.error e => Except.error e
    | Except.ok v =>
      match mapChoices showR tl with
      | Except.error e => Except.error e
      | Except.ok vs => Except.ok (JList.cons v vs)

/-- The zero-valued usage fallback of server.js lines 216-220. -/
def zeroUsage : JValue :=
  JValue.obj (JFields.cons (("prompt_tokens").toList) (JValue.num ['0'])
    (JFields.cons (("completion_tokens").toList) (JValue.num ['0'])
      (JFields.cons (("total_tokens").toList) (JValue.num ['0']) JFields.nil)))

/-- `(nimResponse.data.choices || []).map(...)` (server.js line 192): the
unguarded `data.choices` access throws on a `null` body, a truthy non-array
`choices` makes `.map` throw, a falsy one maps over `[]`. -/
def completionChoices (showR : Bool) (data : JValue) : Except Unit JList :=
  match data with
  | JValue.null => Except.error ()
  | JValue.obj fs =>
    (match jfLookup fs (("choices").toList) with
     | some (JValue.arr es) => mapChoices showR es
     | some v => if jsTruthy v then Except.error () else Except.ok JList.nil
     | none => Except.ok JList.nil)
  | _ => Except.ok JList.nil

/-- `nimResponse.data.usage || {zeros}` (server.js lines 216-220). -/
def completionUsage (data : JValue) : JValue :=
  match data with
  | JValue.obj fs =>
    (match jfLookup fs (("usage").toList) with
     | some v => if jsTruthy v then v else zeroUsage
     | none => zeroUsage)
  | _ => zeroUsage

/-- The non-streaming response (server.js lines 192-221): `model` echoes the
caller-facing model name; `nowMs` and `createdS` stand for the two separate
`Date.now()` reads at lines 211 and 213. -/
def buildCompletion (showR : Bool) (model : List Char) (data : JValue)
    (nowMs createdS : Nat) : Except Unit JValue :=
  let usage : JValue := completionUsage data
  match completionChoices showR data with
  | Except.error e => Except.error e
  | Except.ok cs =>
    Except.ok (JValue.obj
      (JFields.cons (("id").toList)
        (JValue.str (("chatcmpl-").toList ++ natLex nowMs))
        (JFields.cons (("object").toList) (JValue.str (("chat.completion").toList))
          (JFields.cons (("created").toList) (JValue.num (natLex createdS))
            (JFields.cons (("model").toList) (JValue.str model)
              (JFields.cons (("choices").toList) (JValue.arr cs)
                (JFields.cons (("usage").toList) usage JFields.nil)))))))

/-- Concatenation of all chunks of a stream. -/
def joinChunks : List (List Char) → List Char
  | [] => []
  | c :: cs => c ++ joinChunks cs

/-- The reasoning/content fragments a line contributes to the merge logic:
`some (reasoning, content)` when the line reaches the merge branch of
server.js lines 147-148, `none` when it is skipped, a sentinel, dropped or
passed through (all of which leave `inReasoning` untouched). -/
def lineRC (line : List Char) : Option (Option JValue × Option JValue) :=
  match lineClass line with
  | LineClass.merge _ d =>
    some (jProp (("reasoning_content").toList) (some d),
          jProp (("content").toList) (some d))
  | _ => none

/-- The `inReasoning` transition performed by one line. -/
def stepLine (showR inR : Bool) (line : List Char) : Bool :=
  match lineRC line with
  | none => inR
  | some rc => (mergeDelta showR inR rc.1 rc.2).2

/-- `inReasoning` after a list of lines. -/
def runInR (showR : Bool) : Bool → List (List Char) → Bool
  | inR, [] => inR
  | inR, l :: ls => runInR showR (stepLine showR inR l) ls

/-- Number of opening markers the merge logic emits for one line (0 or 1):
one exactly when reasoning is surfaced, the reasoning fragment is truthy and
the span is not already open (server.js lines 153-157). -/
def opensRC (showR inR : Bool) : Option (Option JValue × Option JValue) → Nat
  | none => 0
  | some rc => if showR && optTruthy rc.1 && !inR then 1 else 0

/-- Number of closing markers the merge logic emits for one line (0 or 1):
one exactly when the content fragment is truthy and the span is open when it
is reached (server.js lines 161-165). -/
def closesRC (showR inR : Bool) : Option (Option JValue × Option JValue) → Nat
  | none => 0
  | some rc => if optTruthy rc.2 && (inR || showR && optTruthy rc.1) then 1 else 0

/-- Total opening markers emitted over a line sequence. -/
def totalOpens (showR : Bool) : Bool → List (List Char) → Nat
  | _, [] => 0
  | inR, l :: ls => opensRC showR inR (lineRC l) + totalOpens showR (stepLine showR inR l) ls

/-- Total closing markers emitted over a line sequence. -/
def totalCloses (showR : Bool) : Bool → List (List Char) → Nat
  | _, [] => 0
  | inR, l :: ls => closesRC showR inR (lineRC l) + totalCloses showR (stepLine showR inR l) ls

/-- Whether a line carries a truthy ordinary-content fragment. -/
def contentTruthy (line : List Char) : Bool :=
  match lineRC line with
  | some rc => optTruthy rc.2
  | none => false

/-- Example backend line 1 of spec §8.7 (a reasoning fragment), with its
terminating newline. -/
def exChunk1 : List Char :=
  ("data: \x7b\"choices\":[\x7b\"delta\":\x7b\"reasoning_content\":\"thinking...\"\x7d\x7d]\x7d\n").toList

/-- Example backend line 2 of spec §8.7 (an ordinary content fragment). -/
def exChunk2 : List Char :=
  ("data: \x7b\"choices\":[\x7b\"delta\":\x7b\"content\":\"answer\"\x7d\x7d]\x7d\n").toList

/-- Example backend line 3 of spec §8.7 (the terminal sentinel). -/
def exChunk3 : List Char := ("data: [DONE]\n").toList

/-- Expected first forwarded payload: a delta whose content field is the
opening marker followed by the reasoning text. -/
def exOut1 : JValue :=
  JValue.obj (JFields.cons (("choices").toList)
    (JValue.arr (JList.cons
      (JValue.obj (JFields.cons (("delta").toList)
        (JValue.obj (JFields.cons (("content").toList)
          (JValue.str (("<think>\nthinking...").toList)) JFields.nil))
        JFields.nil))
      JList.nil))
    JFields.nil)

/-- Expected second forwarded payload: a delta whose content field is the
closing marker followed by the answer text. -/
def exOut2 : JValue :=
  JValue.obj (JFields.cons (("choices").toList)
    (JValue.arr (JList.cons
      (JValue.obj (JFields.cons (("delta").toList)
        (JValue.obj (JFields.cons (("content").toList)
          (JValue.str (("\n</think>\n\nanswer").toList)) JFields.nil))
        JFields.nil))
      JList.nil))
    JFields.nil)

/-- A data line whose payload is well-formed JSON that merely mentions the
sentinel token inside a content string (used for claim C9). -/
def doneInsideJsonLine : List Char :=
  ("data: \x7b\"choices\":[\x7b\"delta\":\x7b\"content\":\"ab[DONE]cd\"\x7d\x7d]\x7d").toList

/-- A data line whose payload is not valid JSON (used for claim C5). -/
def malformedLine : List Char := ("data: \x7boops").toList

/-- A valid one-message `messages` value. -/
def exMessages : JValue :=
  JValue.arr (JList.cons
    (JValue.obj (JFields.cons (("role").toList) (JValue.str (("user").toList))
      (JFields.cons (("content").toList) (JValue.str (("hi").toList)) JFields.nil)))
    JList.nil)

theorem splitLines_cons_nl (cs : List Char) :
    splitLines ('\n' :: cs) = ([] :: (splitLines cs).1, (splitLines cs).2) := by
  simp [splitLines]

theorem splitLines_cons_of_nil {c : Char} {cs : List Char} (hc : c ≠ '\n')
    (h1 : (splitLines cs).1 = []) :
    splitLines (c :: cs) = ([], c :: (splitLines cs).2) := by
  simp only [splitLines, if_neg hc, h1]

theorem splitLines_cons_of_cons {c : Char} {cs : List Char} {l : List Char}
    {ls : List (List Char)} (hc : c ≠ '\n') (h1 : (splitLines cs).1 = l :: ls) :
    splitLines (c :: cs) = ((c :: l) :: ls, (splitLines cs).2) := by
  simp only [splitLines, if_neg hc, h1]

theorem splitLines_append (a b : List Char) :
    splitLines (a ++ b) =
      ((splitLines a).1 ++ (splitLines ((splitLines a).2 ++ b)).1,
       (splitLines ((splitLines a).2 ++ b)).2) := by
  induction a with
  | nil => simp [splitLines]
  | cons c a ih =>
    rw [List.cons_append]
    by_cases hc : c = '\n'
    · subst hc
      rw [splitLines_cons_nl, splitLines_cons_nl, ih]
      simp
    · rcases h1 : (splitLines a).1 with _ | ⟨l, ls⟩
      · have hra : (c :: (splitLines a).2) ++ b = c :: ((splitLines a).2 ++ b) :=
          List.cons_append c _ b
        rw [splitLines_cons_of_nil hc h1, hra]
        have h2 : (splitLines (a ++ b)).1 = (splitLines ((splitLines a).2 ++ b)).1 := by
          rw [ih, h1]; simp
        have h3 : (splitLines (a ++ b)).2 = (splitLines ((splitLines a).2 ++ b)).2 := by
          rw [ih]
        rcases h4 : (splitLines ((splitLines a).2 ++ b)).1 with _ | ⟨m, ms⟩
        · rw [splitLines_cons_of_nil hc (h2.trans h4),
            splitLines_cons_of_nil hc h4]
          simp [h3]
        · rw [splitLines_cons_of_cons hc (h2.trans h4),
            splitLines_cons_of_cons hc h4]
          simp [h3]
      · rw [splitLines_cons_of_cons hc h1]
        have h2 : (splitLines (a ++ b)).1
            = l :: (ls ++ (splitLines ((splitLines a).2 ++ b)).1) := by
          rw [ih, h1]; simp
        rw [splitLines_cons_of_cons hc h2, ih]
        simp

theorem splitLines_snd_no_newline (s : List Char) : '\n' ∉ (splitLines s).2 := by
  induction s with
  | nil => simp [splitLines]
  | cons c s ih =>
    by_cases hc : c = '\n'
    · subst hc
      rw [splitLines_cons_nl]
      exact ih
    · rcases h1 : (splitLines s).1 with _ | ⟨l, ls⟩
      · rw [splitLines_cons_of_nil hc h1]
        intro hmem
        rcases List.mem_cons.mp hmem with h | h
        · exact hc h.symm
        · exact ih h
      · rw [splitLines_cons_of_cons hc h1]
        exact ih

theorem splitLines_of_no_newline (s : List Char) (h : '\n' ∉ s) : splitLines s = ([], s) := by
  induction s with
  | nil => simp [splitLines]
  | cons c s ih =>
    have hc : c ≠ '\n' := fun he => h (he ▸ List.mem_cons_self c s)
    have hs : '\n' ∉ s := fun hm => h (List.mem_cons_of_mem c hm)
    have h1 : (splitLines s).1 = [] := by rw [ih hs]
    rw [splitLines_cons_of_nil hc h1, ih hs]

theorem processLines_append (showR : Bool) (inR : Bool) (l1 l2 : List (List Char)) :
    processLines showR inR (l1 ++ l2) =
      ((processLines showR (processLines showR inR l1).1 l2).1,
       (processLines showR inR l1).2
         ++ (processLines showR (processLines showR inR l1).1 l2).2) := by
  induction l1 generalizing inR with
  | nil => simp [processLines]
  | cons l ls ih =>
    rw [List.cons_append]
    simp only [processLines]
    rw [ih]
    simp

theorem feedChunk_append (showR : Bool) (st : TState) (a b : List Char) :
    feedChunk showR st (a ++ b) =
      ((feedChunk showR (feedChunk showR st a).1 b).1,
       (feedChunk showR st a).2 ++ (feedChunk showR (feedChunk showR st a).1 b).2) := by
  simp only [feedChunk]
  rw [← List.append_assoc, splitLines_append, processLines_append]

theorem feedChunks_eq_join (showR : Bool) (st : TState) (cs : List (List Char))
    (h : '\n' ∉ st.buffer) :
    feedChunks showR st cs = feedChunk showR st (joinChunks cs) := by
  induction cs generalizing st with
  | nil =>
    simp only [feedChunks, joinChunks, feedChunk]
    rw [List.append_nil, splitLines_of_no_newline _ h]
    simp [processLines]
  | cons c cs ih =>
    simp only [feedChunks, joinChunks]
    rw [feedChunk_append]
    rw [ih _ (splitLines_snd_no_newline (st.buffer ++ c))]

/-- Claim C1: chunk-boundary independence of the stream transcoder.  Two
chunkings of the same byte sequence — however differently the boundaries are
placed, including in the middle of a line — give the transcoder run the same
final state and exactly the same sequence of output events, because complete
lines are taken from the accumulation buffer and the trailing fragment is
retained (`feedChunk`). -/
theorem C1_chunk_boundary_independence (showR : Bool) (cs1 cs2 : List (List Char))
    (h : joinChunks cs1 = joinChunks cs2) :
    transcode showR cs1 = transcode showR cs2 := by
  unfold transcode
  rw [feedChunks_eq_join showR initialState cs1 (by simp [initialState]),
    feedChunks_eq_join showR initialState cs2 (by simp [initialState]), h]

/-- Witness for C1: the example stream of spec §8.7 cut in the middle of its
first line (even inside a JSON string) produces the same run as the uncut
stream. -/
theorem C1_chunk_boundary_independence_witness :
    joinChunks [exChunk1.take 21, exChunk1.drop 21 ++ exChunk2, exChunk3]
        = joinChunks [exChunk1 ++ exChunk2 ++ exChunk3] ∧
    transcode true [exChunk1.take 21, exChunk1.drop 21 ++ exChunk2, exChunk3]
        = transcode true [exChunk1 ++ exChunk2 ++ exChunk3] :=
  ⟨by decide, C1_chunk_boundary_independence true _ _ (by decide)⟩

theorem processLine_sentinel (showR inR : Bool) (line : List Char)
    (hp : dataMarker.isPrefixOf line = true) (hd : containsSub doneToken line = true) :
    processLine showR inR line = (inR, [OutEvent.done]) := by
  simp [processLine, lineClass, hp, hd]

/-- Claim C4: a line recognized as the terminal sentinel is forwarded as the
sentinel write (for the canonical line `data: [DONE]` this is the line
itself, unmodified, with the SSE blank-line framing), and it does not
terminate line processing: lines before and after it in the same chunk are
processed exactly as without it, and several sentinel lines are each
forwarded independently (instantiate `pre`/`post` with further sentinel
lines). -/
theorem C4_sentinel_passthrough (showR inR : Bool) (pre post : List (List Char))
    (line : List Char) (hp : dataMarker.isPrefixOf line = true)
    (hd : containsSub doneToken line = true) :
    processLines showR inR (pre ++ line :: post) =
      ((processLines showR (processLines showR inR pre).1 post).1,
       (processLines showR inR pre).2
         ++ OutEvent.done :: (processLines showR (processLines showR inR pre).1 post).2) ∧
    renderEvent OutEvent.done = ("data: [DONE]\n\n").toList := by
  constructor
  · rw [processLines_append]
    simp only [processLines]
    rw [processLine_sentinel showR _ line hp hd]
    simp
  · rfl

/-- Witness for C4: a chunk holding two sentinel lines around an ordinary
line forwards both sentinels and still processes the middle line. -/
theorem C4_sentinel_passthrough_witness :
    dataMarker.isPrefixOf exChunk3.dropLast = true ∧
    containsSub doneToken exChunk3.dropLast = true ∧
    processLines true false
        ([exChunk3.dropLast, exChunk2.dropLast] ++ exChunk3.dropLast :: []) =
      ((processLines true (processLines true false [exChunk3.dropLast, exChunk2.dropLast]).1 []).1,
       (processLines true false [exChunk3.dropLast, exChunk2.dropLast]).2
         ++ OutEvent.done
           :: (processLines true
                (processLines true false [exChunk3.dropLast, exChunk2.dropLast]).1 []).2) :=
  ⟨by decide, by decide,
    (C4_sentinel_passthrough true false [exChunk3.dropLast, exChunk2.dropLast] []
      exChunk3.dropLast (by decide) (by decide)).1⟩

/-- Claim C5: a data-prefixed line that is not a sentinel and whose payload
does not parse is silently dropped: it yields no output event, leaves the
state unchanged (the thrown `SyntaxError` is caught, `lineClass` returns
`drop`), and the remaining lines of the stream are processed exactly as if
the malformed line were absent. -/
theorem C5_malformed_line_dropped (showR inR : Bool) (line : List Char)
    (rest : List (List Char)) (hp : dataMarker.isPrefixOf line = true)
    (hd : containsSub doneToken line = false)
    (hparse : jsonParse (line.drop 6) = none) :
    processLine showR inR line = (inR, []) ∧
    processLines showR inR (line :: rest) = processLines showR inR rest := by
  have h1 : processLine showR inR line = (inR, []) := by
    simp [processLine, lineClass, hp, hd, hparse]
  refine ⟨h1, ?_⟩
  simp only [processLines, h1]
  simp

/-- Witness for C5: the non-JSON line is dropped and the following ordinary
line is still transcoded. -/
theorem C5_malformed_line_dropped_witness :
    dataMarker.isPrefixOf malformedLine = true ∧
    containsSub doneToken malformedLine = false ∧
    jsonParse (malformedLine.drop 6) = none ∧
    processLines true false (malformedLine :: [exChunk2.dropLast])
      = processLines true false [exChunk2.dropLast] :=
  ⟨by decide, by decide, by decide,
    (C5_malformed_line_dropped true false malformedLine [exChunk2.dropLast]
      (by decide) (by decide) (by decide)).2⟩

/-- Claim C9: sentinel detection is by substring, not exact match.  Any
data-prefixed line containing `[DONE]` anywhere — including inside an
otherwise well-formed JSON payload — has its payload discarded entirely and
the literal line `data: [DONE]` (with SSE framing) written in its place,
with the state unchanged. -/
theorem C9_sentinel_substring (showR inR : Bool) (line : List Char)
    (hp : dataMarker.isPrefixOf line = true)
    (hd : containsSub doneToken line = true) :
    processLine showR inR line = (inR, [OutEvent.done]) ∧
    renderEvent OutEvent.done = ("data: [DONE]\n\n").toList :=
  ⟨processLine_sentinel showR inR line hp hd, rfl⟩

/-- Witness for C9: a well-formed delta payload whose content text contains
`[DONE]` is replaced wholesale by the sentinel write. -/
theorem C9_sentinel_substring_witness :
    dataMarker.isPrefixOf doneInsideJsonLine = true ∧
    containsSub doneToken doneInsideJsonLine = true ∧
    (jsonParse (doneInsideJsonLine.drop 6)).isSome = true ∧
    processLine true false doneInsideJsonLine = (false, [OutEvent.done]) :=
  ⟨by decide, by decide, by decide,
    (C9_sentinel_substring true false doneInsideJsonLine (by decide) (by decide)).1⟩

/-- Claim C3: with reasoning-surfacing enabled, the three example backend
lines of spec §8.7 produce exactly two forwarded delta events — whose
content fields are `<think>\nthinking...` and `\n</think>\n\nanswer`, which
concatenate to the spec's merged string — followed by the sentinel, in that
order (and nothing else); the rendered writes are listed explicitly. -/
theorem C3_streaming_merge_example :
    (transcode true [exChunk1, exChunk2, exChunk3]).2
        = [OutEvent.json exOut1, OutEvent.json exOut2, OutEvent.done] ∧
    jProp (("content").toList)
        (jProp (("delta").toList) (jIndex0 (jProp (("choices").toList) (some exOut1))))
      = some (JValue.str (("<think>\nthinking...").toList)) ∧
    jProp (("content").toList)
        (jProp (("delta").toList) (jIndex0 (jProp (("choices").toList) (some exOut2))))
      = some (JValue.str (("\n</think>\n\nanswer").toList)) ∧
    ("<think>\nthinking...").toList ++ ("\n</think>\n\nanswer").toList
      = ("<think>\nthinking...\n</think>\n\nanswer").toList ∧
    (transcode true [exChunk1, exChunk2, exChunk3]).2.map renderEvent
      = [("data: \x7b\"choices\":[\x7b\"delta\":\x7b\"content\":\"<think>\\nthinking...\"\x7d\x7d]\x7d\n\n").toList,
         ("data: \x7b\"choices\":[\x7b\"delta\":\x7b\"content\":\"\\n</think>\\n\\nanswer\"\x7d\x7d]\x7d\n\n").toList,
         ("data: [DONE]\n\n").toList] := by
  refine ⟨by decide, by decide, by decide, by decide, by decide⟩

theorem mergeDelta_eq (showR inR : Bool) (r c : Option JValue) :
    mergeDelta showR inR r c =
      ((if showR && optTruthy r && !inR then openMarker else []) ++
        ((if showR && optTruthy r then jToString (r.getD JValue.null) else []) ++
          ((if optTruthy c && (inR || showR && optTruthy r) then closeMarker else []) ++
            (if optTruthy c then jToString (c.getD JValue.null) else []))),
       (inR || showR && optTruthy r) && !optTruthy c) := by
  cases hR : showR && optTruthy r <;> cases hC : optTruthy c <;> cases hI : inR <;>
    simp [mergeDelta, hR, hC, hI]

theorem processLine_fst (showR inR : Bool) (line : List Char) :
    (processLine showR inR line).1 = stepLine showR inR line := by
  unfold processLine stepLine lineRC
  cases lineClass line <;> simp

theorem processLines_fst (showR : Bool) (ls : List (List Char)) :
    ∀ inR, (processLines showR inR ls).1 = runInR showR inR ls := by
  induction ls with
  | nil => intro inR; simp [processLines, runInR]
  | cons l ls ih =>
    intro inR
    simp only [processLines, runInR]
    rw [ih, processLine_fst]

theorem balance_line (showR inR : Bool) (l : List Char) :
    opensRC showR inR (lineRC l) + inR.toNat
      = closesRC showR inR (lineRC l) + (stepLine showR inR l).toNat := by
  cases h : lineRC l with
  | none => simp [opensRC, closesRC, stepLine, h]
  | some rc =>
    simp only [opensRC, closesRC, stepLine, h, mergeDelta_eq]
    cases hR : showR && optTruthy rc.1 <;> cases hC : optTruthy rc.2 <;> cases hI : inR <;>
      simp [hR, hC, hI]

theorem balance_run (showR : Bool) (ls : List (List Char)) :
    ∀ inR, totalOpens showR inR ls + inR.toNat
      = totalCloses showR inR ls + (runInR showR inR ls).toNat := by
  induction ls with
  | nil => intro inR; simp [totalOpens, totalCloses, runInR]
  | cons l ls ih =>
    intro inR
    simp only [totalOpens, totalCloses, runInR]
    have h := balance_line showR inR l
    have h2 := ih (stepLine showR inR l)
    omega

theorem runInR_append (showR : Bool) (xs ys : List (List Char)) :
    ∀ inR, runInR showR inR (xs ++ ys) = runInR showR (runInR showR inR xs) ys := by
  induction xs with
  | nil => intro inR; simp [runInR]
  | cons l ls ih =>
    intro inR
    rw [List.cons_append]
    simp only [runInR]
    exact ih (stepLine showR inR l)

theorem stepLine_content (showR inR : Bool) (l : List Char)
    (h : contentTruthy l = true) : stepLine showR inR l = false := by
  unfold contentTruthy at h
  cases hrc : lineRC l with
  | none => rw [hrc] at h; exact absurd h (by simp)
  | some rc =>
    rw [hrc] at h
    simp at h
    simp [stepLine, hrc, mergeDelta_eq, h]

theorem stepLine_showFalse (l : List Char) : stepLine false false l = false := by
  cases hrc : lineRC l with
  | none => simp [stepLine, hrc]
  | some rc => simp [stepLine, hrc, mergeDelta_eq]

theorem totalOpens_showFalse (ls : List (List Char)) :
    ∀ inR, totalOpens false inR ls = 0 := by
  induction ls with
  | nil => intro inR; simp [totalOpens]
  | cons l ls ih =>
    intro inR
    simp only [totalOpens, ih]
    cases hrc : lineRC l <;> simp [opensRC]

theorem totalCloses_showFalse (ls : List (List Char)) :
    totalCloses false false ls = 0 := by
  induction ls with
  | nil => simp [totalCloses]
  | cons l ls ih =>
    simp only [totalCloses, stepLine_showFalse, ih]
    cases hrc : lineRC l <;> simp [closesRC]

theorem transcode_inR (showR : Bool) (chunks : List (List Char)) :
    (transcode showR chunks).1.inR
      = runInR showR false (splitLines (joinChunks chunks)).1 := by
  unfold transcode
  rw [feedChunks_eq_join showR initialState chunks (by simp [initialState])]
  simp only [feedChunk, initialState]
  rw [List.nil_append]
  exact processLines_fst showR _ false

/-- Claim C2: reasoning-span marker invariant.  For any stream: (1) the
merge logic's output decomposes as optional opening marker ++ surfaced
reasoning ++ optional closing marker ++ content, where the marker pieces are
emitted exactly when `opensRC`/`closesRC` say so (this grounds the marker
counts in the actual output text); (2) the per-line state transition of the
transcoder is `stepLine`; (3) the transcoder's final `inReasoning` equals
the line-level run; (4) over every prefix of the processed lines, opens =
closes + (1 if the span is still open) — so every emitted opening marker has
exactly one matching closing marker except a final still-open span at stream
end, and the counts never drift; (5) a line with a truthy ordinary-content
fragment always leaves the span closed — the matching close is emitted no
later than the next ordinary-content fragment; (6) with reasoning-surfacing
disabled no opening or closing marker is ever emitted. -/
theorem C2_reasoning_span_invariant (showR : Bool) (chunks : List (List Char)) :
    (∀ inR r c, mergeDelta showR inR r c =
        ((if showR && optTruthy r && !inR then openMarker else []) ++
          ((if showR && optTruthy r then jToString (r.getD JValue.null) else []) ++
            ((if optTruthy c && (inR || showR && optTruthy r) then closeMarker else []) ++
              (if optTruthy c then jToString (c.getD JValue.null) else []))),
         (inR || showR && optTruthy r) && !optTruthy c)) ∧
    (∀ inR line, (processLine showR inR line).1 = stepLine showR inR line) ∧
    (transcode showR chunks).1.inR = runInR showR false (splitLines (joinChunks chunks)).1 ∧
    (∀ n, totalOpens showR false ((splitLines (joinChunks chunks)).1.take n)
        = totalCloses showR false ((splitLines (joinChunks chunks)).1.take n)
          + (runInR showR false ((splitLines (joinChunks chunks)).1.take n)).toNat) ∧
    (∀ n l, (splitLines (joinChunks chunks)).1[n]? = some l → contentTruthy l = true →
        runInR showR false ((splitLines (joinChunks chunks)).1.take (n + 1)) = false) ∧
    (showR = false →
        totalOpens showR false (splitLines (joinChunks chunks)).1 = 0 ∧
        totalCloses showR false (splitLines (joinChunks chunks)).1 = 0) := by
  refine ⟨fun inR r c => mergeDelta_eq showR inR r c,
    fun inR line => processLine_fst showR inR line,
    transcode_inR showR chunks, ?_, ?_, ?_⟩
  · intro n
    have h := balance_run showR ((splitLines (joinChunks chunks)).1.take n) false
    simpa using h
  · intro n l hget hc
    rw [List.take_add_one, hget]
    rw [show (some l).toList = [l] from rfl]
    rw [runInR_append]
    show runInR showR (stepLine showR _ l) [] = false
    simp only [runInR]
    exact stepLine_content showR _ l hc
  · intro h
    subst h
    exact ⟨totalOpens_showFalse _ false, totalCloses_showFalse _⟩

/-- Witness for C2: on the example stream, the ordinary-content line at
index 1 leaves the reasoning span closed. -/
theorem C2_reasoning_span_invariant_witness :
    runInR true false ((splitLines (joinChunks [exChunk1, exChunk2])).1.take 2) = false :=
  (C2_reasoning_span_invariant true [exChunk1, exChunk2]).2.2.2.2.1 1
    exChunk2.dropLast (by decide) (by decide)

theorem mapLookup_MODEL_MAP_nonempty (name v : List Char)
    (h : mapLookup MODEL_MAP name = some v) : v.isEmpty = false := by
  simp only [ MODEL_MAP, mapLookup] at h
  split_ifs at h <;> simp_all <;> subst h <;> decide

theorem resolveFallback_nonempty (name : List Char) :
    (resolveFallback name).isEmpty = false := by
  unfold resolveFallback
  dsimp only
  split_ifs <;> decide

/-- Counterexample to claim C7 as stated: the name `toString` is an
ordinary model-name string, yet `MODEL_MAP["toString"]` finds the truthy
function inherited from `Object.prototype`, so the `||` short-circuits and
the program yields that non-string member — not a backend model id, and not
the keyword-fallback result the table miss would otherwise produce.  The
claimed totality ("for every input model-name string the resolver returns a
backend model id") therefore fails. -/
theorem C7_model_resolver_counterexample :
    resolveModelJs (("toString").toList) = ResolvedModel.inheritedMember ∧
    resolveModelJs (("toString").toList)
      ≠ ResolvedModel.id (resolveFallback (("toString").toList)) ∧
    mapLookup MODEL_MAP (("toString").toList) = none := by
  refine ⟨by decide, by decide, by decide⟩

/-- Claim C7 (amended): for every input model-name string that is not one
of the names inherited from `Object.prototype` (`OBJECT_PROTOTYPE_KEYS`),
the resolver returns a backend model id — a non-empty string — and never
fails; for an inherited name not in the table it instead returns the truthy
inherited member and never consults the keyword fallback (the only
deviation from the claim as stated).  Two calls with the same name return
the same result, and whenever the name is an exact key of the lookup table
the table's value is returned rather than any keyword-fallback or inherited
result. -/
theorem C7_model_resolver (name : List Char) :
    (OBJECT_PROTOTYPE_KEYS.contains name = false →
        resolveModelJs name = ResolvedModel.id (resolveModel name) ∧
        (resolveModel name).isEmpty = false) ∧
    (mapLookup MODEL_MAP name = none → OBJECT_PROTOTYPE_KEYS.contains name = true →
        resolveModelJs name = ResolvedModel.inheritedMember) ∧
    (∀ name2, name2 = name → resolveModelJs name2 = resolveModelJs name) ∧
    (∀ v, mapLookup MODEL_MAP name = some v →
        resolveModelJs name = ResolvedModel.id v ∧ resolveModel name = v) := by
  refine ⟨?_, ?_, fun name2 h2 => by rw [h2], ?_⟩
  · intro hmem
    have hmem2 : name ∉ OBJECT_PROTOTYPE_KEYS := by simpa using hmem
    cases hm : mapLookup MODEL_MAP name with
    | none =>
      refine ⟨?_, ?_⟩
      · simp [resolveModelJs, modelMapAccess, resolveModel, hm, hmem2]
      · simp [resolveModel, hm, resolveFallback_nonempty]
    | some v =>
      have hv := mapLookup_MODEL_MAP_nonempty name v hm
      refine ⟨?_, ?_⟩
      · simp [resolveModelJs, modelMapAccess, resolveModel, hm, hv]
      · simp [resolveModel, hm, hv]
  · intro hm hmem
    have hmem2 : name ∈ OBJECT_PROTOTYPE_KEYS := by simpa using hmem
    simp [resolveModelJs, modelMapAccess, hm, hmem2]
  · intro v hv
    have hne := mapLookup_MODEL_MAP_nonempty name v hv
    exact ⟨by simp [resolveModelJs, modelMapAccess, hv, hne],
      by simp [resolveModel, hv, hne]⟩

/-- Witness for C7 (amended): the table entry for `gpt-4o` wins over the
keyword fallback (which would have chosen the 405b model, since the lowered
name contains `gpt-4`) and over the prototype chain. -/
theorem C7_model_resolver_witness :
    mapLookup MODEL_MAP (("gpt-4o").toList) = some (("z-ai/glm5").toList) ∧
    resolveFallback (("gpt-4o").toList) = ("meta/llama-3.1-405b-instruct").toList ∧
    resolveModelJs (("gpt-4o").toList) = ResolvedModel.id (("z-ai/glm5").toList) ∧
    resolveModel (("gpt-4o").toList) = ("z-ai/glm5").toList :=
  ⟨by decide, by decide,
    ((C7_model_resolver (("gpt-4o").toList)).2.2.2 (("z-ai/glm5").toList) (by decide)).1,
    ((C7_model_resolver (("gpt-4o").toList)).2.2.2 (("z-ai/glm5").toList) (by decide)).2⟩

/-- Counterexample to claim C6 as stated: a request with non-empty messages
whose caller-supplied `max_tokens` is the integer 0 does not keep the
caller's value — `max_tokens || 4096` treats 0 as falsy, so the built
request carries 4096, not 0. -/
theorem C6_totality_of_defaults_counterexample :
    messagesOk (Body.mk none (some exMessages) none (some (JValue.num ['0'])) none) = true ∧
    (buildNimBody (Body.mk none (some exMessages) none (some (JValue.num ['0'])) none)).max_tokens
      = JValue.num (("4096").toList) ∧
    JValue.num (("4096").toList) ≠ JValue.num ['0'] := by
  refine ⟨by decide, by decide, by decide⟩

/-- Claim C6 (amended): for every request body with non-empty messages the
gateway calls the backend with a built request that always carries
`temperature`, `max_tokens` and `stream`; messages are copied verbatim;
`temperature` is the caller's value when supplied and non-null, else 0.6;
`stream` is the caller's boolean when supplied, else false; and
`max_tokens` is the caller's value when it is supplied and truthy, but a
supplied falsy value — in particular the integer 0 — falls back to the
default 4096 (this falsy fallback is the only deviation from the claim as
stated). -/
theorem C6_totality_of_defaults (b : Body) (hmsg : messagesOk b = true) :
    gatewayStep b = Outcome.callBackend (defaultedModel b) (buildNimBody b) ∧
    (buildNimBody b).messages = b.messages.getD JValue.null ∧
    (∀ t, b.temperature = some t → t ≠ JValue.null → (buildNimBody b).temperature = t) ∧
    ((b.temperature = none ∨ b.temperature = some JValue.null) →
        (buildNimBody b).temperature = JValue.num (("0.6").toList)) ∧
    (∀ m, b.max_tokens = some m → jsTruthy m = true → (buildNimBody b).max_tokens = m) ∧
    ((b.max_tokens = none ∨ (∃ m, b.max_tokens = some m ∧ jsTruthy m = false)) →
        (buildNimBody b).max_tokens = JValue.num (("4096").toList)) ∧
    (∀ s, b.stream = some (JValue.bool s) → (buildNimBody b).stream = s) ∧
    (b.stream = none → (buildNimBody b).stream = false) := by
  refine ⟨by simp [gatewayStep, hmsg], rfl, ?_, ?_, ?_, ?_, ?_, ?_⟩
  · intro t ht htn
    cases t
    case null => exact absurd rfl htn
    all_goals simp [buildNimBody, ht]
  · intro h
    rcases h with h | h <;> simp [buildNimBody, h]
  · intro m hm hmt
    simp [buildNimBody, hm, hmt]
  · intro h
    rcases h with h | ⟨m, hm, hmf⟩
    · simp [buildNimBody, h]
    · simp [buildNimBody, hm, hmf]
  · intro s hs
    simp [buildNimBody, hs, optTruthy, jsTruthy]
  · intro hs
    simp [buildNimBody, hs, optTruthy]

/-- Witness for C6 (amended): all three fields built from a request that
supplies temperature 0.9 and stream true but no max_tokens. -/
theorem C6_totality_of_defaults_witness :
    (buildNimBody (Body.mk none (some exMessages)
        (some (JValue.num (("0.9").toList))) none (some (JValue.bool true)))).temperature
      = JValue.num (("0.9").toList) ∧
    (buildNimBody (Body.mk none (some exMessages)
        (some (JValue.num (("0.9").toList))) none (some (JValue.bool true)))).max_tokens
      = JValue.num (("4096").toList) ∧
    (buildNimBody (Body.mk none (some exMessages)
        (some (JValue.num (("0.9").toList))) none (some (JValue.bool true)))).stream = true := by
  have h := C6_totality_of_defaults
    (Body.mk none (some exMessages) (some (JValue.num (("0.9").toList)))
      none (some (JValue.bool true))) (by decide)
  exact ⟨h.2.2.1 (JValue.num (("0.9").toList)) rfl (by decide),
    h.2.2.2.2.2.1 (Or.inl rfl), h.2.2.2.2.2.2.1 true rfl⟩

/-- Counterexample to claim C8 as stated: the 400 response body emitted for
a request without `messages` has no `code` member at all, so its envelope is
not of the claimed shape `{error:{message, type, code:integer}}`. -/
theorem C8_missing_messages_counterexample :
    gatewayStep (Body.mk none none none none none)
      = Outcome.reject 400 missingMessagesError ∧
    jProp (("code").toList) (jProp (("error").toList) (some missingMessagesError)) = none := by
  refine ⟨by decide, by decide⟩

/-- Claim C8 (amended): a chat-completion body whose `messages` is absent,
not an array, or empty is rejected with HTTP 400 and the envelope
`{error:{message:string, type:"invalid_request_error"}}` — which carries no
`code` member, the only deviation from the claim as stated — and the
rejection happens before any backend call (the outcome is never
`callBackend`). -/
theorem C8_missing_messages_rejection (b : Body)
    (h : b.messages = none
        ∨ (∀ l, b.messages ≠ some (JValue.arr l))
        ∨ b.messages = some (JValue.arr JList.nil)) :
    gatewayStep b = Outcome.reject 400 missingMessagesError ∧
    jProp (("message").toList) (jProp (("error").toList) (some missingMessagesError))
      = some (JValue.str (("messages array is required").toList)) ∧
    jProp (("type").toList) (jProp (("error").toList) (some missingMessagesError))
      = some (JValue.str (("invalid_request_error").toList)) ∧
    jProp (("code").toList) (jProp (("error").toList) (some missingMessagesError)) = none ∧
    (∀ em nb, gatewayStep b ≠ Outcome.callBackend em nb) := by
  have hok : messagesOk b = false := by
    rcases h with h | h | h
    · simp [messagesOk, h]
    · cases hm : b.messages with
      | none => simp [messagesOk, hm]
      | some v =>
        cases v with
        | null => simp [messagesOk, hm]
        | bool x => simp [messagesOk, hm]
        | num x => simp [messagesOk, hm]
        | str x => simp [messagesOk, hm]
        | obj x => simp [messagesOk, hm]
        | arr es =>
          cases es with
          | nil => simp [messagesOk, hm]
          | cons a tl => exact absurd hm (h (JList.cons a tl))
    · simp [messagesOk, h]
  have hg : gatewayStep b = Outcome.reject 400 missingMessagesError := by
    simp [gatewayStep, hok]
  refine ⟨hg, by decide, by decide, by decide, ?_⟩
  intro em nb
  rw [hg]
  intro hcontra
  exact Outcome.noConfusion hcontra

/-- Witness for C8 (amended): a body whose `messages` is a string (present
but not a sequence) is rejected before any backend call. -/
theorem C8_missing_messages_rejection_witness :
    gatewayStep (Body.mk none (some (JValue.str (("hi").toList))) none none none)
      = Outcome.reject 400 missingMessagesError :=
  (C8_missing_messages_rejection
    (Body.mk none (some (JValue.str (("hi").toList))) none none none)
    (Or.inr (Or.inl (by intro l; simp)))).1

theorem buildCompletion_model (showR : Bool) (model : List Char) (data : JValue)
    (nowMs createdS : Nat) (r : JValue)
    (h : buildCompletion showR model data nowMs createdS = Except.ok r) :
    jProp (("model").toList) (some r) = some (JValue.str model) := by
  unfold buildCompletion at h
  cases hc : completionChoices showR data with
  | error e => rw [hc] at h; cases h
  | ok cs =>
    rw [hc] at h
    injection h with h2
    subst h2
    rfl

/-- Claim C10: a body with non-empty messages and no `model` field is not
rejected; the gateway behaves exactly as if the caller had sent
`model: "gpt-4o"` (the destructuring default), the backend request carries
the resolved id `z-ai/glm5`, and any non-streaming response built for the
request carries `model: "gpt-4o"`. -/
theorem C10_default_model (b : Body) (hmodel : b.model = none)
    (hmsg : messagesOk b = true) :
    gatewayStep b = Outcome.callBackend (("gpt-4o").toList) (buildNimBody b) ∧
    (buildNimBody b).model = ("z-ai/glm5").toList ∧
    gatewayStep b = gatewayStep
      (Body.mk (some (("gpt-4o").toList)) b.messages b.temperature b.max_tokens b.stream) ∧
    (∀ showR2 data nowMs createdS r,
        buildCompletion showR2 (defaultedModel b) data nowMs createdS = Except.ok r →
        jProp (("model").toList) (some r) = some (JValue.str (("gpt-4o").toList))) := by
  have hdm : defaultedModel b = ("gpt-4o").toList := by simp [defaultedModel, hmodel]
  refine ⟨?_, ?_, ?_, ?_⟩
  · simp [gatewayStep, hmsg, hdm]
  · rw [show (buildNimBody b).model = resolveModel (defaultedModel b) from rfl, hdm]
    decide
  · have hb : buildNimBody b = buildNimBody
        (Body.mk (some (("gpt-4o").toList)) b.messages b.temperature b.max_tokens b.stream) := by
      simp [buildNimBody, defaultedModel, hmodel]
    unfold gatewayStep
    rw [show messagesOk
        (Body.mk (some (("gpt-4o").toList)) b.messages b.temperature b.max_tokens b.stream)
        = messagesOk b from rfl, hmsg, hb,
      show defaultedModel
        (Body.mk (some (("gpt-4o").toList)) b.messages b.temperature b.max_tokens b.stream)
        = ("gpt-4o").toList from rfl, hdm]
  · intro showR2 data nowMs createdS r hr
    rw [hdm] at hr
    exact buildCompletion_model showR2 _ data nowMs createdS r hr

/-- Witness for C10: the concrete modelless body is forwarded (not
rejected) with backend model `z-ai/glm5`. -/
theorem C10_default_model_witness :
    gatewayStep (Body.mk none (some exMessages) none none none)
      = Outcome.callBackend (("gpt-4o").toList)
          (buildNimBody (Body.mk none (some exMessages) none none none)) ∧
    (buildNimBody (Body.mk none (some exMessages) none none none)).model
      = ("z-ai/glm5").toList := by
  have h := C10_default_model (Body.mk none (some exMessages) none none none)
    rfl (by decide)
  exact ⟨h.1, h.2.1⟩
